import Mathlib

/-!
Verification development for the adaptive-difficulty (IRT) core of the
sat-ai-tutor backend, `fastapi-backend/adaptive_difficulty.py`.

Python floats are modelled as real numbers (`ℝ`), Python `min(max(x, lo), hi)`
as `min (max x lo) hi`, `np.exp` as `Real.exp`, and list truncation from
Python's `zip` as `List.zip`.  A function that can raise an exception to its
caller (Python's `UnboundLocalError` when the local `hessian` is read after a
loop that never ran) returns `Option`: `none` models the raised exception.
-/

namespace AdaptiveDifficulty

noncomputable section

/-- Embeds `calculate_success_probability` (adaptive_difficulty.py, lines 60-76):
`z = discrimination * (ability - difficulty)`;
`p = guess + (1 - guess) / (1 + np.exp(-z))`.  Note: the source of this
standalone function contains no clamping of `z`. -/
def calculate_success_probability (ability difficulty : ℝ)
    (discrimination : ℝ := 1) (guess : ℝ := 0.25) : ℝ :=
  let z := discrimination * (ability - difficulty)
  guess + (1 - guess) / (1 + Real.exp (-z))

/-- The Response Model as the specification words it (spec §4.1): the exponent
argument is clamped to `[-15, 15]` before exponentiating.  Kept separate from
`calculate_success_probability` (the code), to compare the two. -/
def successProbability_specClamped (ability difficulty discrimination guess : ℝ) : ℝ :=
  let z := discrimination * (ability - difficulty)
  let zc := min (max z (-15)) 15
  guess + (1 - guess) / (1 + Real.exp (-zc))

/-- Result of one of the Newton-Raphson loops: the current estimate, the last
value assigned to the Python local `hessian` (`none` if the loop body never
ran, so the local was never bound), and how many loop bodies executed. -/
structure LoopResult where
  value : ℝ
  hessian : Option ℝ
  steps : ℕ

/-- Embeds one body of the Newton-Raphson loop of `estimate_ability`
(lines 122-155): the inline clamped probabilities, gradient, guarded Hessian
(note both branches of the source's near-zero guard assign `-0.01`), the
step-size-capped update, and the `[-3, 3]`-clamped new ability.  Returns
`(ability_new, hessian)`. -/
def ability_step (responses difficulties discs : List ℝ)
    (guess prior_ability prior_weight ability : ℝ) : ℝ × ℝ :=
  let probs := (difficulties.zip discs).map (fun dd =>
    let z := dd.2 * (ability - dd.1)
    let zc := min (max z (-15)) 15
    let p := guess + (1 - guess) / (1 + Real.exp (-zc))
    min (max p 0.001) 0.999)
  let gradient := (((responses.zip probs).zip discs).map
    (fun rpd => (rpd.1.1 - rpd.1.2) * rpd.2)).sum
    + prior_weight * (prior_ability - ability)
  let hessian := -((probs.zip discs).map
    (fun pd => pd.1 * (1 - pd.1) * pd.2 ^ 2)).sum - prior_weight
  let hessian := if |hessian| < 0.01 then
      (if hessian < 0 then -0.01 else -0.01) else hessian
  let update := gradient / hessian
  let update := min (max update (-0.5)) 0.5
  let ability_new := ability + update
  let ability_new := min (max ability_new (-3)) 3
  (ability_new, hessian)

/-- Embeds the Newton-Raphson loop of `estimate_ability` (lines 113-167).
Arguments after the fixed parameters: remaining iterations of
`range(max_iter)`, the current `safe_iterations` counter, the current
`ability`, and the last bound `hessian`. -/
def ability_loop (responses difficulties discs : List ℝ)
    (guess prior_ability prior_weight tolerance : ℝ) :
    ℕ → ℕ → ℝ → Option ℝ → LoopResult
  | 0, _, ability, hess => ⟨ability, hess, 0⟩
  | k + 1, safe_iterations, ability, hess =>
      let safe := safe_iterations + 1
      if safe > 10 then ⟨ability, hess, 0⟩
      else
        let s := ability_step responses difficulties discs guess prior_ability
          prior_weight ability
        if |s.1 - ability| < tolerance then ⟨s.1, some s.2, 1⟩
        else
          let r := ability_loop responses difficulties discs guess prior_ability
            prior_weight tolerance k safe s.1 (some s.2)
          ⟨r.value, r.hessian, r.steps + 1⟩

/-- Embeds `estimate_ability` (lines 78-177).  Returns `none` when the Python
code raises `UnboundLocalError` (reading `hessian` at line 170 after a loop
that executed no body, i.e. `max_iter = 0` with nonempty responses); the
`except` fallback inside the loop is unreachable in real-number semantics. -/
def estimate_ability (responses difficulties : List ℝ)
    (discriminations : Option (List ℝ) := none) (guess : ℝ := 0.25)
    (prior_ability : ℝ := 0) (prior_weight : ℝ := 1)
    (max_iter : ℕ := 25) (tolerance : ℝ := 0.001) : Option (ℝ × ℝ) :=
  if responses = [] then some (prior_ability, 0)
  else
    let discs := discriminations.getD (List.replicate difficulties.length 1)
    let success_rate := responses.sum / (responses.length : ℝ)
    let simple_ability := (success_rate - 0.5) * 6
    let ability := min (max simple_ability (-3)) 3
    let r := ability_loop responses difficulties discs guess prior_ability
      prior_weight tolerance max_iter 0 ability none
    match r.hessian with
    | none => none
    | some hessian =>
        let confidence := min |hessian| 10
        let ability := if ¬ (-3 ≤ r.value ∧ r.value ≤ 3) then
            min (max r.value (-3)) 3 else r.value
        some (ability, confidence)

/-- Embeds one body of the Newton-Raphson loop of
`estimate_question_difficulty` (lines 208-222): probabilities via
`calculate_success_probability`, flipped gradient sign, epsilon-subtracted
Hessian in the division, no step-size cap and no `[-3,3]` clamp.  Returns
`(difficulty_new, hessian)`. -/
def difficulty_step (responses abilities discs : List ℝ)
    (guess prior_difficulty prior_weight difficulty : ℝ) : ℝ × ℝ :=
  let probs := (abilities.zip discs).map (fun ad =>
    calculate_success_probability ad.1 difficulty ad.2 guess)
  let gradient := -(((responses.zip probs).zip discs).map
    (fun rpd => (rpd.1.1 - rpd.1.2) * rpd.2)).sum
    + prior_weight * (prior_difficulty - difficulty)
  let hessian := -((probs.zip discs).map
    (fun pd => pd.1 * (1 - pd.1) * pd.2 ^ 2)).sum - prior_weight
  let update := gradient / (hessian - 1e-8)
  (difficulty + update, hessian)

/-- Embeds the Newton-Raphson loop of `estimate_question_difficulty`
(lines 208-228), iterating `difficulty_step` up to the remaining fuel. -/
def difficulty_loop (responses abilities discs : List ℝ)
    (guess prior_difficulty prior_weight tolerance : ℝ) :
    ℕ → ℝ → Option ℝ → LoopResult
  | 0, difficulty, hess => ⟨difficulty, hess, 0⟩
  | k + 1, difficulty, _hess =>
      let s := difficulty_step responses abilities discs guess prior_difficulty
        prior_weight difficulty
      if |s.1 - difficulty| < tolerance then ⟨s.1, some s.2, 1⟩
      else
        let r := difficulty_loop responses abilities discs guess prior_difficulty
          prior_weight tolerance k s.1 (some s.2)
        ⟨r.value, r.hessian, r.steps + 1⟩

/-- Embeds `estimate_question_difficulty` (lines 179-232).  The final
`confidence = abs(hessian)` (line 230) has no cap; `none` models the
`UnboundLocalError` at line 230 when the loop never ran. -/
def estimate_question_difficulty (responses abilities : List ℝ)
    (discriminations : Option (List ℝ) := none) (guess : ℝ := 0.25)
    (prior_difficulty : ℝ := 0) (prior_weight : ℝ := 1)
    (max_iter : ℕ := 25) (tolerance : ℝ := 0.001) : Option (ℝ × ℝ) :=
  if responses = [] ∨ abilities = [] then some (prior_difficulty, 0)
  else
    let discs := discriminations.getD (List.replicate abilities.length 1)
    let r := difficulty_loop responses abilities discs guess prior_difficulty
      prior_weight tolerance max_iter prior_difficulty none
    match r.hessian with
    | none => none
    | some hessian => some (r.value, |hessian|)

/-- Embeds `irt_to_difficulty_level` (lines 234-253). -/
def irt_to_difficulty_level (irt_difficulty : ℝ) : ℤ :=
  if irt_difficulty ≤ -1.5 then 1
  else if irt_difficulty ≤ -0.5 then 2
  else if irt_difficulty ≤ 0.5 then 3
  else if irt_difficulty ≤ 1.5 then 4
  else 5

/-- Embeds `difficulty_level_to_irt` (lines 255-264): the table lookup with
default `0.0` for a level outside the table. -/
def difficulty_level_to_irt (level : ℤ) : ℝ :=
  if level = 1 then -2.0
  else if level = 2 then -1.0
  else if level = 3 then 0.0
  else if level = 4 then 1.0
  else if level = 5 then 2.0
  else 0.0

/-- Embeds the pure policy core of `recommend_difficulty` (lines 368-383),
after the topic ability has been fetched: the optional `+0.5` challenge bump,
`target_difficulty = topic_ability`, the tier conversion, and the returned
pair `(difficulty_level, estimated_ability)` — where `estimated_ability` is
the (possibly bumped) local `topic_ability`. -/
def recommend_difficulty (topic_ability : ℝ) (challenge_mode : Bool) : ℤ × ℝ :=
  let ta := if challenge_mode then topic_ability + 0.5 else topic_ability
  let target_difficulty := ta
  let difficulty_level := irt_to_difficulty_level target_difficulty
  (difficulty_level, ta)

/-- Auxiliary: the logistic expression `g + (1-g)/(1+exp(-z))` is strictly
increasing in `z` whenever `g < 1`. -/
theorem logistic_term_lt (g z1 z2 : ℝ) (hg : g < 1) (hz : z1 < z2) :
    g + (1 - g) / (1 + Real.exp (-z1)) < g + (1 - g) / (1 + Real.exp (-z2)) := by
  have he : Real.exp (-z2) < Real.exp (-z1) := Real.exp_lt_exp.mpr (by linarith)
  have h2 : (0:ℝ) < 1 + Real.exp (-z2) := by positivity
  have h4 : 1 + Real.exp (-z2) < 1 + Real.exp (-z1) := by linarith
  have h3 : (1 - g) / (1 + Real.exp (-z1)) < (1 - g) / (1 + Real.exp (-z2)) :=
    div_lt_div_of_pos_left (sub_pos.mpr hg) h2 h4
  linarith

/-- C1 counterexample: `calculate_success_probability` does not clamp its
exponent.  At ability 20, difficulty 0, discrimination 1, guess 0.25, the
code's value differs from the spec's clamped formula (whose exponent is cut
at 15). -/
theorem calculate_success_probability_unclamped_at_20 :
    calculate_success_probability 20 0 1 0.25 ≠ successProbability_specClamped 20 0 1 0.25 := by
  have hc : calculate_success_probability 20 0 1 0.25
      = 0.25 + 0.75 / (1 + Real.exp (-20)) := by
    norm_num [calculate_success_probability]
  have hs : successProbability_specClamped 20 0 1 0.25
      = 0.25 + 0.75 / (1 + Real.exp (-15)) := by
    norm_num [successProbability_specClamped]
  have h1 : Real.exp (-20) < Real.exp (-15) := Real.exp_lt_exp.mpr (by norm_num)
  have h2 : (0:ℝ) < 1 + Real.exp (-20) := by positivity
  have h4 : 1 + Real.exp (-20) < 1 + Real.exp (-15) := by linarith
  have h3 : (0.75:ℝ) / (1 + Real.exp (-15)) < 0.75 / (1 + Real.exp (-20)) :=
    div_lt_div_of_pos_left (by norm_num) h2 h4
  rw [hc, hs]
  exact ne_of_gt (by linarith)

/-- C1 (amended): the standalone `calculate_success_probability` computes the
unclamped formula; for every input whose exponent `discrimination*(ability-difficulty)`
already lies in `[-15, 15]`, the spec's clamped formula agrees with the code. -/
theorem clamp_noop_in_range (a d disc g : ℝ)
    (h1 : -15 ≤ disc * (a - d)) (h2 : disc * (a - d) ≤ 15) :
    successProbability_specClamped a d disc g = calculate_success_probability a d disc g := by
  simp only [successProbability_specClamped, calculate_success_probability]
  rw [max_eq_left h1, min_eq_left h2]

/-- C1 witness: a concrete in-range input for `clamp_noop_in_range`. -/
theorem clamp_noop_in_range_witness :
    (-15 ≤ (1:ℝ) * (1 - 0) ∧ (1:ℝ) * (1 - 0) ≤ 15) ∧
    successProbability_specClamped 1 0 1 0.25 = calculate_success_probability 1 0 1 0.25 :=
  ⟨⟨by norm_num, by norm_num⟩, clamp_noop_in_range 1 0 1 0.25 (by norm_num) (by norm_num)⟩

/-- C4: for every tier t in {1,2,3,4,5},
`irt_to_difficulty_level (difficulty_level_to_irt t) = t` is an exact round-trip. -/
theorem tier_round_trip :
    irt_to_difficulty_level (difficulty_level_to_irt 1) = 1 ∧
    irt_to_difficulty_level (difficulty_level_to_irt 2) = 2 ∧
    irt_to_difficulty_level (difficulty_level_to_irt 3) = 3 ∧
    irt_to_difficulty_level (difficulty_level_to_irt 4) = 4 ∧
    irt_to_difficulty_level (difficulty_level_to_irt 5) = 5 := by
  refine ⟨?_, ?_, ?_, ?_, ?_⟩ <;>
    norm_num [irt_to_difficulty_level, difficulty_level_to_irt]

/-- C5: on an empty responses list, `estimate_ability` returns
`(prior_ability, 0)` immediately, and `estimate_question_difficulty` returns
`(prior_difficulty, 0)` immediately when either `responses` or `abilities` is
empty, for every prior and parameter setting. -/
theorem empty_input_returns_prior (difficulties responses abilities : List ℝ)
    (discs : Option (List ℝ)) (g pa pd pw tol : ℝ) (mi : ℕ) :
    estimate_ability [] difficulties discs g pa pw mi tol = some (pa, 0) ∧
    estimate_question_difficulty responses [] discs g pd pw mi tol = some (pd, 0) ∧
    estimate_question_difficulty [] abilities discs g pd pw mi tol = some (pd, 0) := by
  refine ⟨?_, ?_, ?_⟩ <;> simp [estimate_ability, estimate_question_difficulty]

/-- C6: with challenge mode on, the policy adds exactly `+0.5` to the latent
topic ability and then applies the tier mapper; concretely, ability 1.4 gives
tier 5 (1.9 > 1.5) while ability 1.0 gives tier 4 (1.5 resolves down at the
closed boundary). -/
theorem challenge_mode_bump_then_tier :
    (∀ a : ℝ, (recommend_difficulty a true).1 = irt_to_difficulty_level (a + 0.5)) ∧
    (recommend_difficulty 1.4 true).1 = 5 ∧
    (recommend_difficulty 1.0 true).1 = 4 := by
  refine ⟨fun a => rfl, ?_, ?_⟩ <;>
    norm_num [recommend_difficulty, irt_to_difficulty_level]

/-- C7: for fixed discrimination > 0 and guess in [0,1),
`calculate_success_probability` is strictly increasing in ability and
strictly decreasing in difficulty. -/
theorem success_probability_monotone (disc g : ℝ)
    (hdisc : 0 < disc) (hg0 : 0 ≤ g) (hg1 : g < 1) :
    (∀ a1 a2 d : ℝ, a1 < a2 →
      calculate_success_probability a1 d disc g < calculate_success_probability a2 d disc g) ∧
    (∀ a d1 d2 : ℝ, d1 < d2 →
      calculate_success_probability a d2 disc g < calculate_success_probability a d1 disc g) := by
  constructor
  · intro a1 a2 d h
    have hz : disc * (a1 - d) < disc * (a2 - d) :=
      mul_lt_mul_of_pos_left (by linarith) hdisc
    simpa [calculate_success_probability] using
      logistic_term_lt g (disc * (a1 - d)) (disc * (a2 - d)) hg1 hz
  · intro a d1 d2 h
    have hz : disc * (a - d2) < disc * (a - d1) :=
      mul_lt_mul_of_pos_left (by linarith) hdisc
    simpa [calculate_success_probability] using
      logistic_term_lt g (disc * (a - d2)) (disc * (a - d1)) hg1 hz

/-- C7 witness: monotonicity instantiated at discrimination 1 and guess 0.25,
increasing from ability 0 to 1 at difficulty 0, decreasing from difficulty 0
to 1 at ability 1. -/
theorem success_probability_monotone_witness :
    calculate_success_probability 0 0 1 0.25 < calculate_success_probability 1 0 1 0.25 ∧
    calculate_success_probability 1 1 1 0.25 < calculate_success_probability 1 0 1 0.25 :=
  ⟨(success_probability_monotone 1 0.25 (by norm_num) (by norm_num) (by norm_num)).1
      0 1 0 (by norm_num),
   (success_probability_monotone 1 0.25 (by norm_num) (by norm_num) (by norm_num)).2
      1 0 1 (by norm_num)⟩

/-- C10: when challenge mode is on, the `estimated_ability` field returned by
the recommendation policy is the bumped value: for every topic ability it
equals `topic_ability + 0.5`. -/
theorem recommend_returns_bumped_ability (a : ℝ) :
    (recommend_difficulty a true).2 = a + 0.5 := by
  simp [recommend_difficulty]

/-- Auxiliary: the ability loop executes at most `min fuel (10 - safe)` update
bodies, because `safe_iterations` breaks the loop past 10. -/
theorem ability_loop_steps_le (responses difficulties discs : List ℝ)
    (g pa pw tol : ℝ) :
    ∀ (fuel safe : ℕ) (a : ℝ) (h : Option ℝ),
      (ability_loop responses difficulties discs g pa pw tol fuel safe a h).steps
        ≤ min fuel (10 - safe) := by
  intro fuel
  induction fuel with
  | zero => intro safe a h; simp [ability_loop]
  | succ k ih =>
      intro safe a h
      rw [ability_loop]
      by_cases hsafe : safe + 1 > 10
      · simp [hsafe]
      · simp only [if_neg hsafe]
        generalize ability_step responses difficulties discs g pa pw a = s
        split
        · simp; omega
        · have := ih (safe + 1) s.1 (some s.2)
          simp only [LoopResult.steps] at this ⊢
          omega

/-- Auxiliary: the difficulty loop executes at most `fuel` update bodies. -/
theorem difficulty_loop_steps_le (responses abilities discs : List ℝ)
    (g pd pw tol : ℝ) :
    ∀ (fuel : ℕ) (d : ℝ) (h : Option ℝ),
      (difficulty_loop responses abilities discs g pd pw tol fuel d h).steps ≤ fuel := by
  intro fuel
  induction fuel with
  | zero => intro d h; simp [difficulty_loop]
  | succ k ih =>
      intro d h
      rw [difficulty_loop]
      generalize difficulty_step responses abilities discs g pd pw d = s
      split
      · simp
      · have := ih s.1 (some s.2)
        simp only [LoopResult.steps] at this ⊢
        omega

/-- C9: with the estimators' initial loop state (`safe_iterations = 0`), the
ability loop executes at most `min max_iter 10` Newton-Raphson update steps
— the hard cap of 10 applies regardless of the caller-supplied `max_iter` —
while the difficulty loop executes at most `max_iter` steps; both loops are
total functions, so both estimators terminate on every input. -/
theorem newton_loops_iteration_bounds (responses difficulties abilities discs : List ℝ)
    (g pa pd pw tol a d : ℝ) (h h' : Option ℝ) (max_iter : ℕ) :
    (ability_loop responses difficulties discs g pa pw tol max_iter 0 a h).steps
      ≤ min max_iter 10 ∧
    (difficulty_loop responses abilities discs g pd pw tol max_iter d h').steps
      ≤ max_iter := by
  constructor
  · simpa using ability_loop_steps_le responses difficulties discs g pa pw tol max_iter 0 a h
  · exact difficulty_loop_steps_le responses abilities discs g pd pw tol max_iter d h'

/-- Auxiliary: once the ability loop is entered with at least one remaining
iteration and `safe_iterations < 10` (or when the Python local `hessian` is
already bound), the local `hessian` is bound when the loop finishes. -/
theorem ability_loop_hessian_isSome (responses difficulties discs : List ℝ)
    (g pa pw tol : ℝ) :
    ∀ (fuel safe : ℕ) (a : ℝ) (h : Option ℝ),
      (h.isSome ∨ (1 ≤ fuel ∧ safe < 10)) →
      ((ability_loop responses difficulties discs g pa pw tol fuel safe a h).hessian).isSome := by
  intro fuel
  induction fuel with
  | zero =>
      intro safe a h hh
      rcases hh with hh | hh
      · simpa [ability_loop] using hh
      · omega
  | succ k ih =>
      intro safe a h hh
      rw [ability_loop]
      by_cases hsafe : safe + 1 > 10
      · rcases hh with hh | hh
        · simpa [hsafe] using hh
        · omega
      · simp only [if_neg hsafe]
        generalize ability_step responses difficulties discs g pa pw a = s
        split
        · simp
        · simpa using ih (safe + 1) s.1 (some s.2) (Or.inl (by simp))

/-- Auxiliary: once the difficulty loop is entered with at least one remaining
iteration (or with `hessian` already bound), the local `hessian` is bound
when the loop finishes. -/
theorem difficulty_loop_hessian_isSome (responses abilities discs : List ℝ)
    (g pd pw tol : ℝ) :
    ∀ (fuel : ℕ) (d : ℝ) (h : Option ℝ),
      (h.isSome ∨ 1 ≤ fuel) →
      ((difficulty_loop responses abilities discs g pd pw tol fuel d h).hessian).isSome := by
  intro fuel
  induction fuel with
  | zero =>
      intro d h hh
      rcases hh with hh | hh
      · simpa [difficulty_loop] using hh
      · omega
  | succ k ih =>
      intro d h hh
      rw [difficulty_loop]
      generalize difficulty_step responses abilities discs g pd pw d = s
      split
      · simp
      · simpa using ih s.1 (some s.2) (Or.inl (by simp))

/-- C2 counterexample: with `max_iter = 0` and nonempty responses, the loop of
either estimator never runs, so the Python local `hessian` is unbound when
the post-loop confidence is computed, and both functions raise
`UnboundLocalError` (modelled as `none`) instead of returning a pair. -/
theorem zero_iter_unbound_hessian :
    estimate_ability [1] [0] none 0.25 0 1 0 0.001 = none ∧
    estimate_question_difficulty [1] [0] none 0.25 0 1 0 0.001 = none := by
  constructor <;>
    simp [estimate_ability, estimate_question_difficulty, ability_loop, difficulty_loop]

/-- C2 (amended): whenever the caller-supplied `max_iter` is at least 1 — in
particular at the estimators' default `max_iter = 25` — both `estimate_ability`
and `estimate_question_difficulty` return an (estimate, confidence) pair on
every input, raising no exception. -/
theorem estimators_return_pair_of_pos_iter (responses difficulties abilities : List ℝ)
    (discs discs' : Option (List ℝ)) (g g' pa pd pw pw' tol tol' : ℝ)
    (mi mi' : ℕ) (hmi : 1 ≤ mi) (hmi' : 1 ≤ mi') :
    (estimate_ability responses difficulties discs g pa pw mi tol).isSome ∧
    (estimate_question_difficulty responses abilities discs' g' pd pw' mi' tol').isSome := by
  constructor
  · unfold estimate_ability
    by_cases hresp : responses = []
    · simp [hresp]
    · rw [if_neg hresp]
      have hsome := ability_loop_hessian_isSome responses difficulties
        (discs.getD (List.replicate difficulties.length 1)) g pa pw tol mi 0
        (min (max ((responses.sum / (responses.length : ℝ) - 0.5) * 6) (-3)) 3) none
        (Or.inr ⟨hmi, by norm_num⟩)
      obtain ⟨hv, hh⟩ := Option.isSome_iff_exists.mp hsome
      simp [hh]
  · unfold estimate_question_difficulty
    by_cases hresp : responses = [] ∨ abilities = []
    · rw [if_pos hresp]; simp
    · rw [if_neg hresp]
      have hsome := difficulty_loop_hessian_isSome responses abilities
        (discs'.getD (List.replicate abilities.length 1)) g' pd pw' tol' mi' pd none
        (Or.inr hmi')
      obtain ⟨hv, hh⟩ := Option.isSome_iff_exists.mp hsome
      simp [hh]

/-- C2 witness: both estimators return a pair at a concrete input with
`max_iter = 1`. -/
theorem estimators_return_pair_witness :
    1 ≤ 1 ∧
    (estimate_ability [1] [0] none 0.25 0 1 1 0.001).isSome ∧
    (estimate_question_difficulty [1] [0] none 0.25 0 1 1 0.001).isSome :=
  ⟨le_refl 1, estimators_return_pair_of_pos_iter [1] [0] [0] none none
    0.25 0.25 0 0 1 1 0.001 0.001 1 1 (le_refl 1) (le_refl 1)⟩

/-- C3: whenever `estimate_ability` returns a pair on a 0/1 response list, the
returned value lies in `[-3, 3]`; the prior ability is required in range only
on the empty-input path (which returns it verbatim), while on every nonempty
path the final defensive clamp bounds the value for an arbitrary prior. -/
theorem estimate_ability_value_in_range (responses difficulties : List ℝ)
    (discs : Option (List ℝ)) (g pa pw tol v c : ℝ) (mi : ℕ)
    (hr : ∀ r ∈ responses, r = 0 ∨ r = 1)
    (hpa : responses = [] → -3 ≤ pa ∧ pa ≤ 3)
    (hres : estimate_ability responses difficulties discs g pa pw mi tol = some (v, c)) :
    -3 ≤ v ∧ v ≤ 3 := by
  simp only [estimate_ability] at hres
  by_cases hresp : responses = []
  · rw [if_pos hresp] at hres
    simp only [Option.some.injEq, Prod.mk.injEq] at hres
    obtain ⟨rfl, -⟩ := hres
    exact hpa hresp
  · rw [if_neg hresp] at hres
    set r := ability_loop responses difficulties
      (discs.getD (List.replicate difficulties.length 1)) g pa pw tol mi 0
      (min (max ((responses.sum / (responses.length : ℝ) - 0.5) * 6) (-3)) 3) none with hrdef
    rcases hh : r.hessian with _ | hval
    · rw [hh] at hres; simp at hres
    · rw [hh] at hres
      simp only [Option.some.injEq, Prod.mk.injEq] at hres
      obtain ⟨hv, -⟩ := hres
      rw [← hv]
      split
      · constructor
        · exact le_min (le_trans (by norm_num) (le_max_right _ _)) (by norm_num)
        · exact min_le_right _ _
      · next hcond =>
          push_neg at hcond
          exact hcond

/-- C3 witness: a nonempty-path input with an out-of-range prior ability of
10: at responses `[1]`, difficulties `[0]`, discrimination `[0]` and
`max_iter = 1`, the estimator returns `(2.5, 1)` and the value is in
`[-3, 3]`. -/
theorem estimate_ability_value_in_range_witness :
    estimate_ability [1] [0] (some [0]) 0.25 10 1 1 0.001 = some (2.5, 1) ∧
    ((-3:ℝ) ≤ 2.5 ∧ (2.5:ℝ) ≤ 3) := by
  have heval : estimate_ability [1] [0] (some [0]) 0.25 10 1 1 0.001 = some (2.5, 1) := by
    simp [estimate_ability, ability_loop, ability_step]
    norm_num
  exact ⟨heval,
    estimate_ability_value_in_range [1] [0] (some [0]) 0.25 10 1 0.001 2.5 1 1
      (by simp) (fun h => absurd h (by simp)) heval⟩

/-- Auxiliary: `calculate_success_probability` lies in `[0, 1]` whenever the
guess parameter does. -/
theorem csp_mem_unit (a d disc g : ℝ) (hg0 : 0 ≤ g) (hg1 : g ≤ 1) :
    0 ≤ calculate_success_probability a d disc g ∧
    calculate_success_probability a d disc g ≤ 1 := by
  simp only [calculate_success_probability]
  have he : 0 < Real.exp (-(disc * (a - d))) := Real.exp_pos _
  have h1 : (0:ℝ) < 1 + Real.exp (-(disc * (a - d))) := by linarith
  have hs0 : 0 ≤ (1 - g) / (1 + Real.exp (-(disc * (a - d)))) :=
    div_nonneg (by linarith) (le_of_lt h1)
  have hs1 : (1 - g) / (1 + Real.exp (-(disc * (a - d)))) ≤ 1 - g :=
    div_le_self (by linarith) (by linarith)
  constructor <;> linarith

/-- Auxiliary: every Hessian computed by a difficulty step is at most
`-prior_weight`, because each summand `p*(1-p)*disc^2` is nonnegative when
the guess parameter is in `[0, 1]`. -/
theorem difficulty_step_hessian_le (responses abilities discs : List ℝ)
    (g pd pw d : ℝ) (hg0 : 0 ≤ g) (hg1 : g ≤ 1) :
    (difficulty_step responses abilities discs g pd pw d).2 ≤ -pw := by
  simp only [difficulty_step]
  have hsum : 0 ≤ ((((abilities.zip discs).map (fun ad =>
      calculate_success_probability ad.1 d ad.2 g)).zip discs).map
      (fun pd' => pd'.1 * (1 - pd'.1) * pd'.2 ^ 2)).sum := by
    apply List.sum_nonneg
    intro x hx
    simp only [List.mem_map] at hx
    obtain ⟨⟨p, disc⟩, hmem, rfl⟩ := hx
    have hp : p ∈ (abilities.zip discs).map (fun ad =>
        calculate_success_probability ad.1 d ad.2 g) := (List.of_mem_zip hmem).1
    simp only [List.mem_map] at hp
    obtain ⟨ad, had, rfl⟩ := hp
    have hb := csp_mem_unit ad.1 d ad.2 g hg0 hg1
    have h1 : 0 ≤ calculate_success_probability ad.1 d ad.2 g *
        (1 - calculate_success_probability ad.1 d ad.2 g) :=
      mul_nonneg hb.1 (by linarith [hb.2])
    exact mul_nonneg h1 (sq_nonneg _)
  linarith

/-- Auxiliary: the `hessian` local left by the difficulty loop, if bound, is
at most `-prior_weight`. -/
theorem difficulty_loop_hessian_le (responses abilities discs : List ℝ)
    (g pd pw tol : ℝ) (hg0 : 0 ≤ g) (hg1 : g ≤ 1) :
    ∀ (fuel : ℕ) (d : ℝ) (hs : Option ℝ),
      (∀ x, hs = some x → x ≤ -pw) →
      ∀ x, (difficulty_loop responses abilities discs g pd pw tol fuel d hs).hessian = some x →
        x ≤ -pw := by
  intro fuel
  induction fuel with
  | zero =>
      intro d hs hinv x hx
      exact hinv x (by simpa [difficulty_loop] using hx)
  | succ k ih =>
      intro d hs hinv x hx
      rw [difficulty_loop] at hx
      have hstep := difficulty_step_hessian_le responses abilities discs g pd pw d hg0 hg1
      generalize hgen : difficulty_step responses abilities discs g pd pw d = s at hx hstep
      split at hx
      · simp only [LoopResult.hessian] at hx
        obtain rfl : s.2 = x := by injection hx
        exact hstep
      · simp only [LoopResult.hessian] at hx
        exact ih s.1 (some s.2) (fun y hy => by injection hy with h; exact h ▸ hstep) x hx

/-- C8 counterexample: `estimate_question_difficulty` caps nothing: at
responses `[1]`, abilities `[0]`, discrimination `[0]`, `prior_weight = 20`
and `max_iter = 1` it returns confidence `20`, which exceeds `10` and differs
from `min |finalHessian| 10 = 10`. -/
theorem difficulty_confidence_uncapped :
    estimate_question_difficulty [1] [0] (some [0]) 0.25 0 20 1 0.001 = some (0, 20) ∧
    ¬ ((20:ℝ) ≤ 10) ∧ (20:ℝ) ≠ min 20 10 := by
  refine ⟨?_, by norm_num, by norm_num⟩
  simp [estimate_question_difficulty, difficulty_loop, difficulty_step,
    calculate_success_probability]

/-- C8 (amended): the final confidence of `estimate_question_difficulty` is
the uncapped `|finalHessian|`; consequently, whenever the guess parameter is
in `[0, 1]` and a pair is returned on nonempty input, the confidence is at
least `prior_weight` — so it exceeds `10.0` whenever `prior_weight` does. -/
theorem difficulty_confidence_ge_prior_weight (responses abilities : List ℝ)
    (discs : Option (List ℝ)) (g pd pw tol d c : ℝ) (mi : ℕ)
    (hg0 : 0 ≤ g) (hg1 : g ≤ 1)
    (hne : responses ≠ []) (hne' : abilities ≠ [])
    (hres : estimate_question_difficulty responses abilities discs g pd pw mi tol
      = some (d, c)) :
    pw ≤ c := by
  simp only [estimate_question_difficulty] at hres
  rw [if_neg (not_or.mpr ⟨hne, hne'⟩)] at hres
  set r := difficulty_loop responses abilities
    (discs.getD (List.replicate abilities.length 1)) g pd pw tol mi pd none with hrdef
  rcases hh : r.hessian with _ | hval
  · rw [hh] at hres; simp at hres
  · rw [hh] at hres
    simp only [Option.some.injEq, Prod.mk.injEq] at hres
    obtain ⟨-, hc⟩ := hres
    have hle := difficulty_loop_hessian_le responses abilities
      (discs.getD (List.replicate abilities.length 1)) g pd pw tol hg0 hg1 mi pd none
      (fun x hx => by simp at hx) hval hh
    rw [← hc]
    calc pw ≤ -hval := by linarith
    _ ≤ |hval| := neg_le_abs hval

/-- C8 witness: at the counterexample input the returned confidence 20 is
indeed at least the prior weight 20. -/
theorem difficulty_confidence_ge_prior_weight_witness :
    ((0:ℝ) ≤ 0.25 ∧ (0.25:ℝ) ≤ 1) ∧
    estimate_question_difficulty [1] [0] (some [0]) 0.25 0 20 1 0.001 = some (0, 20) ∧
    (20:ℝ) ≤ 20 := by
  have heval : estimate_question_difficulty [1] [0] (some [0]) 0.25 0 20 1 0.001
      = some (0, 20) := by
    simp [estimate_question_difficulty, difficulty_loop, difficulty_step,
      calculate_success_probability]
  exact ⟨⟨by norm_num, by norm_num⟩, heval,
    difficulty_confidence_ge_prior_weight [1] [0] (some [0]) 0.25 0 20 0.001 0 20 1
      (by norm_num) (by norm_num) (by simp) (by simp) heval⟩

end

end AdaptiveDifficulty
